import Mathlib

/-!
Shallow embedding of the mcp-ambari server core, translated from the Go
sources: the permission model and header-based auth provider
(internal/auth), the Template Method executor for operations
(internal/operations), the operation registry
(internal/operations/actionable/users.go), and the PKI subsystem
(internal/certs).  Machine integers are modelled as Int or Nat; Go maps
read by lookup are modelled as association lists; effectful primitives
(the wall clock, crypto randomness, the file system) are passed in as
explicit oracles so that the otherwise-impure Go functions become pure
state-passing functions.  Payloads the code treats opaquely
(map[string]interface sub args, operation results, DER byte strings) are
modelled by concrete stand-in types, since no code under study inspects
them.
-/

namespace McpAmbari

/-- Permission is an opaque string token (internal/auth, type Permission string). -/
abbrev Permission := String

/-- Arguments map passed to operations; the executor treats it opaquely. -/
abbrev Args := List (String × String)

/-- Opaque payload produced by an operation Execute step. -/
abbrev Value := String

/-- AuthContext holds authentication and authorization information
(internal/auth, struct AuthContext). -/
structure AuthContext where
  Username : String
  Groups : List String
  Permissions : List Permission
  IsValidated : Bool
  Source : String
  Headers : List (String × String) := []
deriving Repr

/-- HasPermission checks if the user has a specific permission: a linear
scan over the resolved permission slice. -/
def AuthContext.HasPermission (a : AuthContext) (perm : Permission) : Bool :=
  a.Permissions.any (fun p => p == perm)

/-- HasAllPermissions checks if the user has all required permissions:
every element of perms passes HasPermission. -/
def AuthContext.HasAllPermissions (a : AuthContext) (perms : List Permission) : Bool :=
  perms.all (fun perm => a.HasPermission perm)

/-- OperationType distinguishes read-only from actionable operations. -/
inductive OperationType where
  | ReadOnly
  | Actionable
deriving DecidableEq, Repr

/-- String value of an OperationType constant ("readonly" / "actionable"). -/
def OperationType.str : OperationType → String
  | .ReadOnly => "readonly"
  | .Actionable => "actionable"

/-- Operation is the core interface every Ambari operation implements
(internal/operations, interface Operation).  The Go interface methods
become fields; Validate returns an error or nil (Option String), Execute
returns a result or an error (Except String Value).  The context
argument of Execute is dropped: the executor only threads it through. -/
structure Operation where
  Name : String
  Description : String := ""
  OpType : OperationType
  Category : String := ""
  RequiredPermissions : List Permission
  Validate : Args → Option String
  Execute : Args → Except String Value

/-- OperationResult wraps the result of executing an operation
(internal/operations, struct OperationResult).  Timestamp holds the UTC
instant (nanoseconds) that Go renders with time.RFC3339. -/
structure OperationResult where
  Tool : String
  OperationTypeTag : String
  ExecutionMs : Int
  Timestamp : Int
  Result : Value
deriving Repr

/-- Errors returned by Executor.Run; each constructor mirrors one
fmt.Errorf format string of the Go code, carrying its verbs as fields. -/
inductive RunError where
  | insufficientPermissions (tool : String) (requires : List Permission)
  | validationFailed (tool : String) (cause : String)
  | operationFailed (tool : String) (cause : String)
deriving DecidableEq, Repr

/-- Tool (capability) name carried by a RunError. -/
def RunError.tool : RunError → String
  | .insufficientPermissions t _ => t
  | .validationFailed t _ => t
  | .operationFailed t _ => t

/-- checkPermissions: empty requirement list short-circuits to nil;
otherwise the auth context must hold every required permission
(internal/operations, Executor.checkPermissions). -/
def checkPermissions (op : Operation) (authCtx : AuthContext) : Option RunError :=
  let required := op.RequiredPermissions
  if required.length == 0 then
    none
  else if !(authCtx.HasAllPermissions required) then
    some (.insufficientPermissions op.Name required)
  else
    none

/-- Outcome of one Executor.Run call, together with flags recording
whether the Validate and Execute hooks of the operation were invoked
(the call counters of the spec's testable properties). -/
structure RunTrace where
  outcome : Except RunError OperationResult
  validateCalled : Bool
  executeCalled : Bool

/-- Executor.Run applies the Template Method: auth-check, then validate,
then execute, then wrap the result with metadata
(internal/operations, Executor.Run).  The wall clock is an oracle
consumed in call order: reading 0 is the initial time.Now(), reading 1
the one inside time.Since, reading 2 the time.Now().UTC() used for the
timestamp.  Go's Duration.Milliseconds divides nanoseconds truncating
toward zero, hence Int.tdiv. -/
def Executor.Run (clock : Nat → Int) (op : Operation) (args : Args)
    (authCtx : AuthContext) : RunTrace :=
  let start := clock 0
  match checkPermissions op authCtx with
  | some e => ⟨.error e, false, false⟩
  | none =>
    match op.Validate args with
    | some verr => ⟨.error (.validationFailed op.Name verr), true, false⟩
    | none =>
      match op.Execute args with
      | .error eerr => ⟨.error (.operationFailed op.Name eerr), true, true⟩
      | .ok result =>
        let elapsed := Int.tdiv (clock 1 - start) 1000000
        ⟨.ok { Tool := op.Name
               OperationTypeTag := op.OpType.str
               ExecutionMs := elapsed
               Timestamp := clock 2
               Result := result },
         true, true⟩

/-- Permissions the auth context is missing from a required list (the
set difference the spec says an AuthorizationError should carry). -/
def missingPermissions (required : List Permission) (authCtx : AuthContext) : List Permission :=
  required.filter (fun p => !(authCtx.HasPermission p))

/-- Registry holds all registered operations and provides lookup by name
and type (internal/operations/actionable/users.go, struct Registry).
The Go map from name to operation is modelled as an association list
whose keys Register keeps unique; the readonly and actionable slices
are kept verbatim.  The RWMutex disappears: state passing already makes
each call atomic. -/
structure Registry where
  ops : List (String × Operation)
  readonly : List Operation
  actionable : List Operation

/-- NewRegistry creates a new operation registry with an empty map. -/
def NewRegistry : Registry :=
  { ops := [], readonly := [], actionable := [] }

/-- Register adds an operation to the registry; a name already present
in the map makes it fail without touching any state.  Go mutates the
receiver and returns error or nil; here the updated registry is
returned alongside the optional error message. -/
def Registry.Register (r : Registry) (op : Operation) : Registry × Option String :=
  if r.ops.any (fun p => p.1 == op.Name) then
    (r, some ("operation " ++ op.Name ++ " already registered"))
  else
    let r1 : Registry := { r with ops := r.ops ++ [(op.Name, op)] }
    let r2 : Registry :=
      match op.OpType with
      | .ReadOnly => { r1 with readonly := r1.readonly ++ [op] }
      | .Actionable => { r1 with actionable := r1.actionable ++ [op] }
    (r2, none)

/-- Get returns an operation by name, looking it up in the map. -/
def Registry.Get (r : Registry) (name : String) : Option Operation :=
  (r.ops.find? (fun p => p.1 == name)).map (fun p => p.2)

/-- LDAPProvider implements AuthProvider for LDAP authentication via
headers (internal/auth, struct LDAPProvider).  Go maps read only by
key lookup become association lists. -/
structure LDAPProvider where
  headerPfx : String
  groupMappings : List (String × List String)
  defaultPermissions : List Permission

/-- Lookup in a Go map[string]string by key: absent keys read as the
zero value, the empty string. -/
def lookupStr (m : List (String × String)) (k : String) : String :=
  match m.find? (fun p => p.1 == k) with
  | some p => p.2
  | none => ""

/-- Insertion into the permSet map[Permission]bool of Authenticate:
setting a key true adds it if absent.  Iteration order of a Go map is
unspecified; the model keeps insertion order, and all theorems about
the resulting slice are membership statements only. -/
def insertPerm (s : List Permission) (p : Permission) : List Permission :=
  if s.contains p then s else s ++ [p]

/-- The permSet accumulation loop of LDAPProvider.Authenticate: for each
group, if a mapping exists, mark each mapped permission. -/
def collectPerms (prov : LDAPProvider) (groups : List String) : List Permission :=
  groups.foldl
    (fun s g =>
      match prov.groupMappings.find? (fun m => m.1 == g) with
      | some m => m.2.foldl (fun s2 perm => insertPerm s2 perm) s
      | none => s)
    []

/-- Membership in the union, over the groups, of each group's mapped
permission list (the set the spec says Authenticate resolves). -/
def inUnion (prov : LDAPProvider) (groups : List String) (perm : Permission) : Bool :=
  groups.any (fun g =>
    match prov.groupMappings.find? (fun m => m.1 == g) with
    | some m => m.2.contains perm
    | none => false)

/-- Username extraction of Authenticate: the primary name header with
fallback to the secondary username header. -/
def extractUsername (prov : LDAPProvider) (headers : List (String × String)) : String :=
  let username0 := lookupStr headers (prov.headerPfx ++ "name")
  if username0 == "" then lookupStr headers (prov.headerPfx ++ "username") else username0

/-- Group extraction of Authenticate: split the groups header on commas
and trim each entry; an absent (empty) header yields no groups. -/
def extractGroups (prov : LDAPProvider) (headers : List (String × String)) : List String :=
  let groupsHeader := lookupStr headers (prov.headerPfx ++ "groups")
  if groupsHeader == "" then []
  else (groupsHeader.splitOn ",").map (fun g => g.trim)

/-- Resolved permission slice of Authenticate: the accumulated union of
the group-mapped permissions, or the default permissions when that
union came out empty. -/
def resolvePerms (prov : LDAPProvider) (groups : List String) : List Permission :=
  let permSet := collectPerms prov groups
  if permSet.length == 0 then
    prov.defaultPermissions.foldl (fun s perm => insertPerm s perm) []
  else permSet

/-- LDAPProvider.Authenticate (internal/auth): extract the username from
the primary header with fallback to the secondary one, fail when both
are empty; split and trim the groups header; accumulate the union of
the mapped permissions of each group; fall back to the configured
default permissions when that union is empty. -/
def LDAPProvider.Authenticate (prov : LDAPProvider) (headers : List (String × String)) :
    Except String AuthContext :=
  let username := extractUsername prov headers
  if username == "" then
    .error "username not found in headers"
  else
    let groups := extractGroups prov headers
    .ok { Username := username
          Groups := groups
          Permissions := resolvePerms prov groups
          IsValidated := true
          Source := "LDAP"
          Headers := headers }

/-- RSA private key, abstracted to the bit size requested from the key
generator; nothing in the code under study inspects the key material. -/
structure RSAPrivateKey where
  bits : Nat
deriving DecidableEq, Repr

/-- Go x509 KeyUsage bit constants (crypto/x509). -/
def KeyUsageDigitalSignature : Nat := 1

/-- KeyUsageKeyEncipherment bit (1 shifted left 2). -/
def KeyUsageKeyEncipherment : Nat := 4

/-- KeyUsageCertSign bit (1 shifted left 5). -/
def KeyUsageCertSign : Nat := 32

/-- KeyUsageCRLSign bit (1 shifted left 6). -/
def KeyUsageCRLSign : Nat := 64

/-- Extended key usages used by the generator (crypto/x509). -/
inductive ExtKeyUsage where
  | ServerAuth
  | ClientAuth
deriving DecidableEq, Repr

/-- pkix.Name with the fields the generator fills. -/
structure PkixName where
  Organization : List String
  Country : List String
  CommonName : String
deriving DecidableEq, Repr

/-- x509.Certificate restricted to the fields the generator sets and the
spec talks about.  Times are UTC instants in nanoseconds. -/
structure Certificate where
  SerialNumber : Nat
  Subject : PkixName
  Issuer : PkixName
  NotBefore : Int
  NotAfter : Int
  KeyUsage : Nat
  ExtKeyUsages : List ExtKeyUsage
  BasicConstraintsValid : Bool
  IsCA : Bool
  MaxPathLen : Int
  DNSNames : List String
  IPAddresses : List String
deriving DecidableEq, Repr

/-- Content of a DER byte string in a PEM block: either an encoded
certificate or an encoded PKCS1 private key.  x509 parsing succeeds
exactly when the content kind matches the parser. -/
inductive DERContent where
  | certDER (c : Certificate)
  | keyDER (k : RSAPrivateKey)
deriving DecidableEq, Repr

/-- A decoded PEM block: the type tag line and the DER payload. -/
structure PemBlock where
  TypeTag : String
  Bytes : DERContent
deriving DecidableEq, Repr

/-- Byte strings holding PEM data, abstracted to the outcome pem.Decode
has on them: none models bytes containing no PEM block. -/
abbrev PemBytes := Option PemBlock

/-- x509.ParseCertificate on a DER payload. -/
def parseCertificate : DERContent → Except String Certificate
  | .certDER c => .ok c
  | .keyDER _ => .error "x509 malformed certificate"

/-- x509.ParsePKCS1PrivateKey on a DER payload. -/
def parsePKCS1PrivateKey : DERContent → Except String RSAPrivateKey
  | .keyDER k => .ok k
  | .certDER _ => .error "x509 malformed private key"

/-- CAConfig holds configuration for CA certificate generation
(internal/certs/generator.go). -/
structure CAConfig where
  Organization : String
  Country : String
  ValidDays : Int
  KeySize : Nat
deriving DecidableEq, Repr

/-- CertConfig holds configuration for server and client certificate
generation.  net.IP values are opaque to the generator and modelled as
strings. -/
structure CertConfig where
  CommonName : String
  Organization : String
  Country : String
  ValidDays : Int
  KeySize : Nat
  DNSNames : List String
  IPAddresses : List String
  IsServer : Bool
deriving DecidableEq, Repr

/-- CAResult holds the generated or loaded CA certificate and key. -/
structure CAResult where
  Certificate : Certificate
  PrivateKey : RSAPrivateKey
  CertPEM : PemBytes
  KeyPEM : PemBytes
deriving DecidableEq, Repr

/-- CertResult holds a generated leaf certificate and key. -/
structure CertResult where
  Certificate : Certificate
  PrivateKey : RSAPrivateKey
  CertPEM : PemBytes
  KeyPEM : PemBytes
deriving DecidableEq, Repr

/-- Errors of the certs package; one constructor per fmt.Errorf format
string, carrying the wrapped cause.  The Go code wraps causes into
messages with distinct prefixes; the constructors keep those shapes
distinguishable. -/
inductive CertsError where
  | caKeyGenFailed (cause : String)
  | keyGenFailed (cause : String)
  | serialGenFailed (cause : String)
  | readCACertFailed (ioCause : String)
  | decodeCACertPEMFailed
  | parseCACertFailed (cause : String)
  | readCAKeyFailed (ioCause : String)
  | decodeCAKeyPEMFailed
  | parseCAKeyFailed (cause : String)
  | loadCAFailed (cause : CertsError)
  | generateCertFailed (cause : CertsError)
  | mkdirFailed (cause : String)
  | writeCertFailed (cause : String)
  | writeKeyFailed (cause : String)
deriving DecidableEq, Repr

/-- Oracle for the effectful crypto primitives: key generation for a
requested size, serial-number generation, and the wall clock read in
call order (reading 0 feeds NotBefore, reading 1 the Add that yields
NotAfter). -/
structure CryptoEnv where
  genKey : Nat → Except String RSAPrivateKey
  genSerial : Except String Nat
  now : Nat → Int

/-- x509.CreateCertificate followed by x509.ParseCertificate: signing
and DER round-tripping are abstracted as the identity on the template
fields, with the issuer taken from the parent's subject. -/
def createCertificate (template parent : Certificate) : Certificate :=
  { template with Issuer := parent.Subject }

/-- One day of Go time.Duration, in nanoseconds. -/
def nsPerDay : Int := 24 * 3600 * 1000000000

/-- One hour of Go time.Duration (time.Hour), in nanoseconds. -/
def nsPerHour : Int := 3600000000000

/-- Reduction of an unbounded integer into the int64 range, the
wrap-around Go two-complement arithmetic performs on overflow. -/
def wrapInt64 (x : Int) : Int :=
  (x + 9223372036854775808) % 18446744073709551616 - 9223372036854775808

/-- The validity-window duration the generator computes as
time.Duration(days) * 24 * time.Hour: time.Duration is int64, so each
of the two multiplications wraps on overflow (the product leaves the
int64 range once days reaches 106752). -/
def daysDuration (days : Int) : Int :=
  wrapInt64 (wrapInt64 (days * 24) * nsPerHour)

/-- GenerateCA creates a new Certificate Authority
(internal/certs/generator.go, GenerateCA).  NotBefore and NotAfter come
from two separate time.Now() calls, clock readings 0 and 1. -/
def GenerateCA (env : CryptoEnv) (config : CAConfig) : Except CertsError CAResult :=
  match env.genKey config.KeySize with
  | .error e => .error (.caKeyGenFailed e)
  | .ok privateKey =>
    match env.genSerial with
    | .error e => .error (.serialGenFailed e)
    | .ok serialNumber =>
      let template : Certificate :=
        { SerialNumber := serialNumber
          Subject := { Organization := [config.Organization]
                       Country := [config.Country]
                       CommonName := "Ambari MCP Server CA" }
          Issuer := { Organization := [], Country := [], CommonName := "" }
          NotBefore := env.now 0
          NotAfter := env.now 1 + daysDuration config.ValidDays
          KeyUsage := KeyUsageCertSign ||| KeyUsageCRLSign ||| KeyUsageDigitalSignature
          ExtKeyUsages := [.ServerAuth, .ClientAuth]
          BasicConstraintsValid := true
          IsCA := true
          MaxPathLen := 1
          DNSNames := []
          IPAddresses := [] }
      let cert := createCertificate template template
      .ok { Certificate := cert
            PrivateKey := privateKey
            CertPEM := some { TypeTag := "CERTIFICATE", Bytes := .certDER cert }
            KeyPEM := some { TypeTag := "RSA PRIVATE KEY", Bytes := .keyDER privateKey } }

/-- GenerateCertificate creates a server or client certificate signed by
the CA (internal/certs/generator.go, GenerateCertificate).  Extended key
usage and subject alternative names are set from IsServer after the
template literal, whose zero values leave a client leaf without SANs. -/
def GenerateCertificate (env : CryptoEnv) (config : CertConfig) (ca : CAResult) :
    Except CertsError CertResult :=
  match env.genKey config.KeySize with
  | .error e => .error (.keyGenFailed e)
  | .ok privateKey =>
    match env.genSerial with
    | .error e => .error (.serialGenFailed e)
    | .ok serialNumber =>
      let template : Certificate :=
        { SerialNumber := serialNumber
          Subject := { Organization := [config.Organization]
                       Country := [config.Country]
                       CommonName := config.CommonName }
          Issuer := { Organization := [], Country := [], CommonName := "" }
          NotBefore := env.now 0
          NotAfter := env.now 1 + daysDuration config.ValidDays
          KeyUsage := KeyUsageKeyEncipherment ||| KeyUsageDigitalSignature
          ExtKeyUsages := []
          BasicConstraintsValid := true
          IsCA := false
          MaxPathLen := 0
          DNSNames := []
          IPAddresses := [] }
      let template :=
        if config.IsServer then
          { template with ExtKeyUsages := [.ServerAuth]
                          DNSNames := config.DNSNames
                          IPAddresses := config.IPAddresses }
        else
          { template with ExtKeyUsages := [.ClientAuth] }
      let cert := createCertificate template ca.Certificate
      .ok { Certificate := cert
            PrivateKey := privateKey
            CertPEM := some { TypeTag := "CERTIFICATE", Bytes := .certDER cert }
            KeyPEM := some { TypeTag := "RSA PRIVATE KEY", Bytes := .keyDER privateKey } }

/-- A file on disk: its PEM payload and its permission mode bits. -/
structure FileEntry where
  data : PemBytes
  mode : Nat
deriving DecidableEq, Repr

/-- File system state: newest write first; reads see the newest entry. -/
abbrev FileSys := List (String × FileEntry)

/-- os.ReadFile and os.Stat view of the file system. -/
def fsRead (fs : FileSys) (path : String) : Option FileEntry :=
  (fs.find? (fun p => p.1 == path)).map (fun p => p.2)

/-- os.WriteFile on success: the path now holds the data with the mode. -/
def fsWrite (fs : FileSys) (path : String) (entry : FileEntry) : FileSys :=
  (path, entry) :: fs

/-- Oracle for file-system failures: whether the single MkdirAll call of
a save function succeeds, and whether writing a given path succeeds. -/
structure IOEnv where
  mkdirOk : Bool
  writeOk : String → Bool

/-- SaveCAToFiles writes the CA certificate with mode 0644 and the CA
private key with mode 0600 (internal/certs/generator.go). -/
def SaveCAToFiles (io : IOEnv) (fs : FileSys) (ca : CAResult)
    (certPath keyPath : String) : Except CertsError FileSys :=
  if !io.mkdirOk then
    .error (.mkdirFailed "failed to create directory")
  else if !(io.writeOk certPath) then
    .error (.writeCertFailed "failed to write CA certificate")
  else
    let fs1 := fsWrite fs certPath { data := ca.CertPEM, mode := 0o644 }
    if !(io.writeOk keyPath) then
      .error (.writeKeyFailed "failed to write CA private key")
    else
      .ok (fsWrite fs1 keyPath { data := ca.KeyPEM, mode := 0o600 })

/-- SaveCertToFiles writes a leaf certificate with mode 0644 and its
private key with mode 0600 (internal/certs/generator.go). -/
def SaveCertToFiles (io : IOEnv) (fs : FileSys) (cert : CertResult)
    (certPath keyPath : String) : Except CertsError FileSys :=
  if !io.mkdirOk then
    .error (.mkdirFailed "failed to create directory")
  else if !(io.writeOk certPath) then
    .error (.writeCertFailed "failed to write certificate")
  else
    let fs1 := fsWrite fs certPath { data := cert.CertPEM, mode := 0o644 }
    if !(io.writeOk keyPath) then
      .error (.writeKeyFailed "failed to write private key")
    else
      .ok (fsWrite fs1 keyPath { data := cert.KeyPEM, mode := 0o600 })

/-- LoadCA loads a CA certificate and private key from files
(internal/certs/generator.go, LoadCA).  Reading a missing path is the
generic I/O failure; a byte string with no PEM block, or a block whose
type tag is not the expected one, is the decode failure; a block whose
DER payload is of the wrong kind is the parse failure. -/
def LoadCA (fs : FileSys) (certPath keyPath : String) : Except CertsError CAResult :=
  match fsRead fs certPath with
  | none => .error (.readCACertFailed "no such file or directory")
  | some certFile =>
    match certFile.data with
    | none => .error .decodeCACertPEMFailed
    | some block =>
      if block.TypeTag != "CERTIFICATE" then
        .error .decodeCACertPEMFailed
      else
        match parseCertificate block.Bytes with
        | .error e => .error (.parseCACertFailed e)
        | .ok cert =>
          match fsRead fs keyPath with
          | none => .error (.readCAKeyFailed "no such file or directory")
          | some keyFile =>
            match keyFile.data with
            | none => .error .decodeCAKeyPEMFailed
            | some keyBlock =>
              if keyBlock.TypeTag != "RSA PRIVATE KEY" then
                .error .decodeCAKeyPEMFailed
              else
                match parsePKCS1PrivateKey keyBlock.Bytes with
                | .error e => .error (.parseCAKeyFailed e)
                | .ok privateKey =>
                  .ok { Certificate := cert
                        PrivateKey := privateKey
                        CertPEM := certFile.data
                        KeyPEM := keyFile.data }

/-- CertManager handles certificate operations for mTLS (certs package,
struct CertManager).  The logger is dropped. -/
structure CertManager where
  certsDir : String
  caCertPath : String
  caKeyPath : String
deriving DecidableEq, Repr

/-- NewCertManager derives the CA paths from the certs directory with
filepath.Join. -/
def NewCertManager (certsDir : String) : CertManager :=
  { certsDir := certsDir
    caCertPath := certsDir ++ "/ca/ca-cert.pem"
    caKeyPath := certsDir ++ "/ca/ca-key.pem" }

/-- CertManager.SignClientCert: load the CA, force the config to a
client certificate, and generate the CA-signed leaf; a CA load failure
is wrapped and nothing is generated. -/
def CertManager.SignClientCert (cm : CertManager) (fs : FileSys) (env : CryptoEnv)
    (config : CertConfig) : Except CertsError CertResult :=
  match LoadCA fs cm.caCertPath cm.caKeyPath with
  | .error e => .error (.loadCAFailed e)
  | .ok ca =>
    match GenerateCertificate env { config with IsServer := false } ca with
    | .error e => .error (.generateCertFailed e)
    | .ok cert => .ok cert

/-- Capability name carried by a Run outcome when it is an error. -/
def outcomeErrTool : Except RunError OperationResult → Option String
  | .error e => some e.tool
  | .ok _ => none

/-- Concrete actionable operation requiring two permissions. -/
def opRestart : Operation :=
  { Name := "restart_service"
    OpType := .Actionable
    RequiredPermissions := ["cluster:view", "service:restart"]
    Validate := fun _ => none
    Execute := fun _ => .ok "restarted" }

/-- Concrete operation whose validation always rejects. -/
def opBadArgs : Operation :=
  { Name := "add_user"
    OpType := .Actionable
    RequiredPermissions := []
    Validate := fun _ => some "user_name is required"
    Execute := fun _ => .ok "added" }

/-- Concrete read-only operation with no required permissions. -/
def opListClusters : Operation :=
  { Name := "list_clusters"
    OpType := .ReadOnly
    RequiredPermissions := []
    Validate := fun _ => none
    Execute := fun _ => .ok "clusters" }

/-- Identity holding only the cluster viewing permission. -/
def ctxViewer : AuthContext :=
  { Username := "alice"
    Groups := ["VIEWER"]
    Permissions := ["cluster:view"]
    IsValidated := true
    Source := "LDAP" }

/-- Identity with an empty resolved permission set. -/
def ctxNoPerms : AuthContext :=
  { Username := "bob"
    Groups := []
    Permissions := []
    IsValidated := true
    Source := "LDAP" }

/-- First registration fixture: a read-only operation named get_users. -/
def opGetUsersA : Operation :=
  { Name := "get_users"
    OpType := .ReadOnly
    RequiredPermissions := ["cluster:view"]
    Validate := fun _ => none
    Execute := fun _ => .ok "users-a" }

/-- Second registration fixture: a different operation reusing the name
get_users. -/
def opGetUsersB : Operation :=
  { Name := "get_users"
    OpType := .Actionable
    RequiredPermissions := ["cluster:admin"]
    Validate := fun _ => none
    Execute := fun _ => .ok "users-b" }

/-- The OperationResult that Executor.Run produces for opListClusters
under the constant clock returning 5. -/
def resListClusters : OperationResult :=
  { Tool := "list_clusters"
    OperationTypeTag := "readonly"
    ExecutionMs := 0
    Timestamp := 5
    Result := "clusters" }

/-- LDAP provider fixture: one mapped group and one default permission. -/
def provLdap : LDAPProvider :=
  { headerPfx := "x-auth-"
    groupMappings := [("ADMIN", ["cluster:admin", "service:admin"])]
    defaultPermissions := ["cluster:view"] }

/-- Header map fixture carrying only a username, no groups header. -/
def hdrsAlice : List (String × String) := [("x-auth-name", "alice")]

/-- The AuthContext that provLdap.Authenticate returns for hdrsAlice:
no group matched, so the default permissions apply. -/
def ctxAlice : AuthContext :=
  { Username := "alice"
    Groups := []
    Permissions := ["cluster:view"]
    IsValidated := true
    Source := "LDAP"
    Headers := hdrsAlice }

/-- Crypto oracle whose primitives all succeed and whose clock stands
still at 0. -/
def envOk : CryptoEnv :=
  { genKey := fun size => .ok { bits := size }
    genSerial := .ok 7
    now := fun _ => 0 }

/-- Crypto oracle whose clock advances one nanosecond per reading. -/
def envTick : CryptoEnv :=
  { genKey := fun size => .ok { bits := size }
    genSerial := .ok 7
    now := fun i => (i : Int) }

/-- CA configuration of the spec's concrete scenario: 2048-bit key and
365 days of validity. -/
def caCfg365 : CAConfig :=
  { Organization := "Ambari MCP", Country := "US", ValidDays := 365, KeySize := 2048 }

/-- Subject of the CA certificate generated from caCfg365. -/
def caSubject : PkixName :=
  { Organization := ["Ambari MCP"], Country := ["US"], CommonName := "Ambari MCP Server CA" }

/-- CA certificate produced from caCfg365 under the standing clock. -/
def caCertSame : Certificate :=
  { SerialNumber := 7
    Subject := caSubject
    Issuer := caSubject
    NotBefore := 0
    NotAfter := 0 + daysDuration 365
    KeyUsage := KeyUsageCertSign ||| KeyUsageCRLSign ||| KeyUsageDigitalSignature
    ExtKeyUsages := [.ServerAuth, .ClientAuth]
    BasicConstraintsValid := true
    IsCA := true
    MaxPathLen := 1
    DNSNames := []
    IPAddresses := [] }

/-- CA result produced by GenerateCA envOk caCfg365. -/
def caResSame : CAResult :=
  { Certificate := caCertSame
    PrivateKey := { bits := 2048 }
    CertPEM := some { TypeTag := "CERTIFICATE", Bytes := .certDER caCertSame }
    KeyPEM := some { TypeTag := "RSA PRIVATE KEY", Bytes := .keyDER { bits := 2048 } } }

/-- CA certificate produced from caCfg365 under the ticking clock: the
second time.Now() call lands one nanosecond after the first. -/
def caCertTick : Certificate :=
  { SerialNumber := 7
    Subject := caSubject
    Issuer := caSubject
    NotBefore := 0
    NotAfter := 1 + daysDuration 365
    KeyUsage := KeyUsageCertSign ||| KeyUsageCRLSign ||| KeyUsageDigitalSignature
    ExtKeyUsages := [.ServerAuth, .ClientAuth]
    BasicConstraintsValid := true
    IsCA := true
    MaxPathLen := 1
    DNSNames := []
    IPAddresses := [] }

/-- CA result produced by GenerateCA envTick caCfg365. -/
def caResTick : CAResult :=
  { Certificate := caCertTick
    PrivateKey := { bits := 2048 }
    CertPEM := some { TypeTag := "CERTIFICATE", Bytes := .certDER caCertTick }
    KeyPEM := some { TypeTag := "RSA PRIVATE KEY", Bytes := .keyDER { bits := 2048 } } }

/-- Server-leaf configuration with the spec's DNS name scenario. -/
def cfgServerLeaf : CertConfig :=
  { CommonName := "ambari-server"
    Organization := "Ambari MCP"
    Country := "US"
    ValidDays := 30
    KeySize := 2048
    DNSNames := ["localhost", "svc.example"]
    IPAddresses := ["127.0.0.1"]
    IsServer := true }

/-- Leaf certificate produced for cfgServerLeaf, signed by caResSame. -/
def leafServerCert : Certificate :=
  { SerialNumber := 7
    Subject := { Organization := ["Ambari MCP"], Country := ["US"], CommonName := "ambari-server" }
    Issuer := caSubject
    NotBefore := 0
    NotAfter := 0 + daysDuration 30
    KeyUsage := KeyUsageKeyEncipherment ||| KeyUsageDigitalSignature
    ExtKeyUsages := [.ServerAuth]
    BasicConstraintsValid := true
    IsCA := false
    MaxPathLen := 0
    DNSNames := ["localhost", "svc.example"]
    IPAddresses := ["127.0.0.1"] }

/-- Leaf result produced by GenerateCertificate envOk cfgServerLeaf
caResSame. -/
def leafServerFix : CertResult :=
  { Certificate := leafServerCert
    PrivateKey := { bits := 2048 }
    CertPEM := some { TypeTag := "CERTIFICATE", Bytes := .certDER leafServerCert }
    KeyPEM := some { TypeTag := "RSA PRIVATE KEY", Bytes := .keyDER { bits := 2048 } } }

/-- Certificate manager rooted at the certs directory. -/
def cmCerts : CertManager := NewCertManager "certs"

/-- File system holding a CA certificate file whose bytes decode to no
PEM block at all. -/
def fsBadCert : FileSys := [("certs/ca/ca-cert.pem", { data := none, mode := 0o644 })]

/-- I/O oracle for which directory creation and every write succeed. -/
def ioAll : IOEnv := { mkdirOk := true, writeOk := fun _ => true }

/-- File system after SaveCAToFiles writes caResSame. -/
def fsAfterSaveCA : FileSys :=
  [("ca/ca-key.pem", { data := caResSame.KeyPEM, mode := 0o600 }),
   ("ca/ca-cert.pem", { data := caResSame.CertPEM, mode := 0o644 })]

/-- File system after SaveCertToFiles writes leafServerFix. -/
def fsAfterSaveLeaf : FileSys :=
  [("tls/server-key.pem", { data := leafServerFix.KeyPEM, mode := 0o600 }),
   ("tls/server-cert.pem", { data := leafServerFix.CertPEM, mode := 0o644 })]

end McpAmbari

namespace McpAmbari

/-- The duplicate-name check of Register was false and the map gained
exactly the new binding, whenever Register reports no error. -/
theorem Register_ok_ops (r r1 : Registry) (op : Operation)
    (h : Registry.Register r op = (r1, none)) :
    r.ops.any (fun p => p.1 == op.Name) = false
    ∧ r1.ops = r.ops ++ [(op.Name, op)] := by
  by_cases hany : r.ops.any (fun p => p.1 == op.Name) = true
  · simp [Registry.Register, hany] at h
  · have hany2 : r.ops.any (fun p => p.1 == op.Name) = false :=
      Bool.eq_false_iff.mpr hany
    refine ⟨hany2, ?_⟩
    cases hty : op.OpType <;>
      simp only [Registry.Register, hany2, hty, Bool.false_eq_true, if_false,
        Prod.mk.injEq, and_true] at h <;>
      subst h <;> rfl

/-- Register leaves the registry untouched and reports the duplicate
error whenever the name is already bound in the map. -/
theorem Register_dup (r : Registry) (op : Operation)
    (h : r.ops.any (fun p => p.1 == op.Name) = true) :
    Registry.Register r op = (r, some ("operation " ++ op.Name ++ " already registered")) := by
  simp [Registry.Register, h]

/-- Any error produced by checkPermissions is the insufficient
permission error naming the operation and its full required list. -/
theorem checkPermissions_some_shape (op : Operation) (ctx : AuthContext) (err : RunError)
    (h : checkPermissions op ctx = some err) :
    err = .insufficientPermissions op.Name op.RequiredPermissions := by
  simp only [checkPermissions] at h
  split_ifs at h
  all_goals simp_all

/-- C1 counterexample: an identity holding cluster:view but not
service:restart invokes an operation requiring both.  The missing set
is the singleton service:restart, yet the returned authorization error
carries the full required list, which differs from the missing set —
the error does not list exactly the missing permissions. -/
theorem run_authz_error_not_exactly_missing :
    (Executor.Run (fun _ => 0) opRestart [] ctxViewer).outcome =
      .error (.insufficientPermissions "restart_service" ["cluster:view", "service:restart"])
    ∧ missingPermissions opRestart.RequiredPermissions ctxViewer = ["service:restart"]
    ∧ (["cluster:view", "service:restart"] : List Permission) ≠ ["service:restart"] := by
  refine ⟨rfl, rfl, by decide⟩

/-- C1 (amended): when the identity lacks at least one required
permission, Executor.Run fails with the authorization error that names
the operation and carries its full required permission list (a
superset of the missing permissions, not exactly the missing set), and
neither Validate nor Execute is invoked. -/
theorem run_authz_failure_blocks_all (clock : Nat → Int) (op : Operation) (args : Args)
    (authCtx : AuthContext)
    (h : authCtx.HasAllPermissions op.RequiredPermissions = false) :
    (Executor.Run clock op args authCtx).outcome =
      .error (.insufficientPermissions op.Name op.RequiredPermissions)
    ∧ (Executor.Run clock op args authCtx).validateCalled = false
    ∧ (Executor.Run clock op args authCtx).executeCalled = false
    ∧ ∀ p, p ∈ missingPermissions op.RequiredPermissions authCtx →
        p ∈ op.RequiredPermissions := by
  have hne : (op.RequiredPermissions.length == 0) = false := by
    cases hq : op.RequiredPermissions with
    | nil => rw [hq] at h; simp [AuthContext.HasAllPermissions] at h
    | cons a l => simp
  have hcp : checkPermissions op authCtx =
      some (.insufficientPermissions op.Name op.RequiredPermissions) := by
    simp [checkPermissions, hne, h]
  refine ⟨by simp [Executor.Run, hcp], by simp [Executor.Run, hcp],
    by simp [Executor.Run, hcp], fun p hp => ?_⟩
  exact List.mem_of_mem_filter hp

/-- C1 witness: the amended theorem applied to the concrete scenario of
the counterexample. -/
theorem run_authz_failure_blocks_all_witness :
    (Executor.Run (fun _ => 0) opRestart [] ctxViewer).outcome =
      .error (.insufficientPermissions opRestart.Name opRestart.RequiredPermissions)
    ∧ (Executor.Run (fun _ => 0) opRestart [] ctxViewer).executeCalled = false := by
  have hw := run_authz_failure_blocks_all (fun _ => 0) opRestart [] ctxViewer (by decide)
  exact ⟨hw.1, hw.2.2.1⟩

/-- C2: whenever the operation's own validation rejects the arguments,
Executor.Run returns an error naming the capability and the Execute
hook is never invoked, for every identity whatever its permissions. -/
theorem run_validate_failure_blocks_execute (clock : Nat → Int) (op : Operation)
    (args : Args) (authCtx : AuthContext) (e : String)
    (h : op.Validate args = some e) :
    (Executor.Run clock op args authCtx).executeCalled = false
    ∧ outcomeErrTool (Executor.Run clock op args authCtx).outcome = some op.Name := by
  cases hc : checkPermissions op authCtx with
  | some err =>
    have hshape := checkPermissions_some_shape op authCtx err hc
    subst hshape
    exact ⟨by simp [Executor.Run, hc],
      by simp [Executor.Run, hc, outcomeErrTool, RunError.tool]⟩
  | none =>
    exact ⟨by simp [Executor.Run, hc, h],
      by simp [Executor.Run, hc, h, outcomeErrTool, RunError.tool]⟩

/-- C2 witness: a validation-rejecting operation run by an identity
that does hold every required permission (the requirement list is
empty, so any identity passes authorization). -/
theorem run_validate_failure_blocks_execute_witness :
    (Executor.Run (fun _ => 0) opBadArgs [] ctxViewer).executeCalled = false
    ∧ outcomeErrTool (Executor.Run (fun _ => 0) opBadArgs [] ctxViewer).outcome =
        some opBadArgs.Name :=
  run_validate_failure_blocks_execute (fun _ => 0) opBadArgs [] ctxViewer
    "user_name is required" rfl

/-- C3: after a successful registration of op1, registering any op2
bearing the same name fails with the duplicate error and returns the
registry unchanged — its map and its per-type slices included — and
lookup of the name still yields op1. -/
theorem register_duplicate_rejected (r r1 : Registry) (op1 op2 : Operation)
    (hname : op2.Name = op1.Name)
    (h : Registry.Register r op1 = (r1, none)) :
    Registry.Register r1 op2 =
      (r1, some ("operation " ++ op2.Name ++ " already registered"))
    ∧ Registry.Get r1 op1.Name = some op1 := by
  obtain ⟨hany, hops⟩ := Register_ok_ops r r1 op1 h
  have hany1 : r1.ops.any (fun p => p.1 == op2.Name) = true := by
    rw [hops, List.any_append]
    simp [hname]
  refine ⟨Register_dup r1 op2 hany1, ?_⟩
  rw [Registry.Get, hops, List.find?_append]
  have hfind : r.ops.find? (fun p => p.1 == op1.Name) = none := by
    refine List.find?_eq_none.mpr fun x hx => ?_
    have hx2 := List.any_eq_false.mp hany x hx
    simpa using hx2
  simp [hfind]

/-- C3 witness: two operations named get_users registered into a fresh
registry; the second registration fails and lookup returns the first
operation. -/
theorem register_duplicate_rejected_witness :
    Registry.Register (Registry.Register NewRegistry opGetUsersA).1 opGetUsersB =
      ((Registry.Register NewRegistry opGetUsersA).1,
        some ("operation " ++ opGetUsersB.Name ++ " already registered"))
    ∧ Registry.Get (Registry.Register NewRegistry opGetUsersA).1 opGetUsersA.Name =
        some opGetUsersA :=
  register_duplicate_rejected NewRegistry (Registry.Register NewRegistry opGetUsersA).1
    opGetUsersA opGetUsersB rfl rfl

/-- C9: a Run call that returns a result reports the operation's name
and type tag, a non-negative elapsed duration, and a completion instant
no earlier than the invocation start, provided the wall clock never
runs backwards across the readings Run takes. -/
theorem run_success_result_metadata (clock : Nat → Int) (op : Operation) (args : Args)
    (authCtx : AuthContext) (r : OperationResult)
    (h01 : clock 0 ≤ clock 1) (h02 : clock 0 ≤ clock 2)
    (h : (Executor.Run clock op args authCtx).outcome = .ok r) :
    r.Tool = op.Name ∧ r.OperationTypeTag = op.OpType.str
    ∧ 0 ≤ r.ExecutionMs ∧ clock 0 ≤ r.Timestamp := by
  cases hc : checkPermissions op authCtx with
  | some err => simp [Executor.Run, hc] at h
  | none =>
    cases hv : op.Validate args with
    | some verr => simp [Executor.Run, hc, hv] at h
    | none =>
      cases he : op.Execute args with
      | error eerr => simp [Executor.Run, hc, hv, he] at h
      | ok v =>
        simp only [Executor.Run, hc, hv, he] at h
        injection h with h2
        subst h2
        refine ⟨rfl, rfl, ?_, h02⟩
        exact Int.tdiv_nonneg (by omega) (by norm_num)

/-- C9 witness: a permission-free operation run under a constant clock
produces the expected metadata. -/
theorem run_success_result_metadata_witness :
    resListClusters.Tool = opListClusters.Name
    ∧ (0 : Int) ≤ resListClusters.ExecutionMs
    ∧ (5 : Int) ≤ resListClusters.Timestamp := by
  have hw := run_success_result_metadata (fun _ => 5) opListClusters [] ctxNoPerms
    resListClusters (by norm_num) (by norm_num) rfl
  exact ⟨hw.1, hw.2.2.1, hw.2.2.2⟩

/-- C10: an operation declaring no required permissions never fails
authorization — checkPermissions short-circuits to nil for every
identity, including one with an empty permission set, and Run always
reaches the Validate step. -/
theorem run_no_required_permissions_reaches_validate (op : Operation)
    (authCtx : AuthContext) (h : op.RequiredPermissions = []) :
    checkPermissions op authCtx = none
    ∧ ∀ (clock : Nat → Int) (args : Args),
        (Executor.Run clock op args authCtx).validateCalled = true := by
  have hc : checkPermissions op authCtx = none := by
    simp [checkPermissions, h]
  refine ⟨hc, fun clock args => ?_⟩
  cases hv : op.Validate args with
  | some verr => simp [Executor.Run, hc, hv]
  | none =>
    cases he : op.Execute args with
    | error eerr => simp [Executor.Run, hc, hv, he]
    | ok v => simp [Executor.Run, hc, hv, he]

/-- C10 witness: the permission-free operation with an identity whose
permission set is empty. -/
theorem run_no_required_permissions_reaches_validate_witness :
    checkPermissions opListClusters ctxNoPerms = none
    ∧ (Executor.Run (fun _ => 0) opListClusters [] ctxNoPerms).validateCalled = true := by
  have hw := run_no_required_permissions_reaches_validate opListClusters ctxNoPerms rfl
  exact ⟨hw.1, hw.2 (fun _ => 0) []⟩

/-- Membership after marking one permission in the permSet map. -/
theorem mem_insertPerm (s : List Permission) (p x : Permission) :
    x ∈ insertPerm s p ↔ x ∈ s ∨ x = p := by
  unfold insertPerm
  split_ifs with hc
  · have hp : p ∈ s := by simpa using hc
    constructor
    · exact Or.inl
    · rintro (hx | rfl)
      · exact hx
      · exact hp
  · simp [List.mem_append]

/-- Membership after marking a whole list of permissions. -/
theorem mem_foldl_insertPerm (l : List Permission) (s : List Permission) (x : Permission) :
    x ∈ l.foldl (fun s2 perm => insertPerm s2 perm) s ↔ x ∈ s ∨ x ∈ l := by
  induction l generalizing s with
  | nil => simp
  | cons a l ih =>
    simp only [List.foldl_cons, ih, mem_insertPerm, List.mem_cons]
    tauto

/-- Membership in the group loop of Authenticate, for any accumulator. -/
theorem mem_foldl_groups (prov : LDAPProvider) (groups : List String)
    (s : List Permission) (x : Permission) :
    x ∈ groups.foldl
        (fun s g =>
          match prov.groupMappings.find? (fun m => m.1 == g) with
          | some m => m.2.foldl (fun s2 perm => insertPerm s2 perm) s
          | none => s) s
      ↔ x ∈ s ∨ inUnion prov groups x = true := by
  induction groups generalizing s with
  | nil => simp [inUnion]
  | cons g gs ih =>
    simp only [List.foldl_cons]
    cases hf : prov.groupMappings.find? (fun m => m.1 == g) with
    | none =>
      rw [ih]
      simp [inUnion, hf]
    | some m =>
      rw [ih, mem_foldl_insertPerm]
      simp [inUnion, hf]
      tauto

/-- Membership in collectPerms is membership in the union of the mapped
permissions of the groups. -/
theorem mem_collectPerms (prov : LDAPProvider) (groups : List String) (x : Permission) :
    x ∈ collectPerms prov groups ↔ inUnion prov groups x = true := by
  unfold collectPerms
  rw [mem_foldl_groups]
  simp

/-- C7: a successful Authenticate resolves the permission set as the
union over the identity's groups of the mapped permissions; when that
union is empty the permission set instead equals the configured default
permission set. -/
theorem authenticate_union_or_default (prov : LDAPProvider)
    (headers : List (String × String)) (a : AuthContext)
    (h : prov.Authenticate headers = .ok a) :
    (collectPerms prov a.Groups ≠ [] →
      ∀ perm, perm ∈ a.Permissions ↔ inUnion prov a.Groups perm = true)
    ∧ (collectPerms prov a.Groups = [] →
      ∀ perm, perm ∈ a.Permissions ↔ perm ∈ prov.defaultPermissions) := by
  simp only [LDAPProvider.Authenticate] at h
  split at h
  · exact absurd h (by simp)
  · injection h with h2
    subst h2
    dsimp only
    constructor
    · intro hne perm
      have hlen : ((collectPerms prov (extractGroups prov headers)).length == 0) = false := by
        refine beq_eq_false_iff_ne.mpr ?_
        simpa [List.length_eq_zero] using hne
      unfold resolvePerms
      rw [if_neg (by simp [hlen])]
      exact mem_collectPerms prov _ perm
    · intro heq perm
      unfold resolvePerms
      rw [if_pos (by simp [heq])]
      rw [mem_foldl_insertPerm]
      simp

/-- C7 witness: headers carrying a username but no groups header give
an identity whose groups match no mapping, and whose permission set
equals the configured default permission set. -/
theorem authenticate_union_or_default_witness :
    collectPerms provLdap ctxAlice.Groups = []
    ∧ ("cluster:view" ∈ ctxAlice.Permissions ↔
        "cluster:view" ∈ provLdap.defaultPermissions) := by
  have hw := authenticate_union_or_default provLdap hdrsAlice ctxAlice rfl
  exact ⟨rfl, hw.2 rfl "cluster:view"⟩

/-- C6 counterexample: under a clock that advances one nanosecond
between the two time.Now() calls of GenerateCA, the certificate's
NotAfter minus NotBefore exceeds exactly 365 whole days. -/
theorem generate_ca_validity_not_exact_counterexample :
    GenerateCA envTick caCfg365 = .ok caResTick
    ∧ caResTick.Certificate.NotAfter - caResTick.Certificate.NotBefore ≠
        caCfg365.ValidDays * nsPerDay := by
  refine ⟨rfl, by decide⟩

/-- Wrapping is the identity on values already inside the int64 range. -/
theorem wrapInt64_eq_self (x : Int) (h0 : -9223372036854775808 ≤ x)
    (h1 : x < 9223372036854775808) : wrapInt64 x = x := by
  unfold wrapInt64
  omega

/-- Below 106752 days the duration multiply stays inside int64, so the
wrapping computation agrees with the exact one. -/
theorem daysDuration_eq_of_lt (d : Int) (h0 : 0 ≤ d) (h1 : d < 106752) :
    daysDuration d = d * nsPerDay := by
  unfold daysDuration
  rw [wrapInt64_eq_self (d * 24) (by omega) (by omega)]
  rw [show nsPerHour = 3600000000000 from rfl]
  rw [wrapInt64_eq_self (d * 24 * 3600000000000) (by omega) (by omega)]
  rw [show nsPerDay = 86400000000000 from rfl]
  ring

/-- C6 (amended): a generated CA certificate is self-signed (issuer
equals subject), has IsCA set, a path length constraint of 1, key usage
including certificate signing and CRL signing, extended key usage
containing both serverAuth and clientAuth; NotAfter minus NotBefore
equals the int64-wrapping product time.Duration(ValidDays)*24*time.Hour
plus the (clock-dependent) delay between the two time.Now() readings,
and for ValidDays in the overflow-free range 0 ≤ d < 106752 that is
ValidDays whole days plus the delay — exactly ValidDays days when the
two readings coincide. -/
theorem generate_ca_fields (env : CryptoEnv) (config : CAConfig) (ca : CAResult)
    (h : GenerateCA env config = .ok ca) :
    ca.Certificate.Issuer = ca.Certificate.Subject
    ∧ ca.Certificate.IsCA = true
    ∧ ca.Certificate.MaxPathLen = 1
    ∧ ca.Certificate.KeyUsage &&& KeyUsageCertSign ≠ 0
    ∧ ca.Certificate.KeyUsage &&& KeyUsageCRLSign ≠ 0
    ∧ ExtKeyUsage.ServerAuth ∈ ca.Certificate.ExtKeyUsages
    ∧ ExtKeyUsage.ClientAuth ∈ ca.Certificate.ExtKeyUsages
    ∧ ca.Certificate.NotAfter - ca.Certificate.NotBefore =
        daysDuration config.ValidDays + (env.now 1 - env.now 0)
    ∧ (0 ≤ config.ValidDays → config.ValidDays < 106752 →
        ca.Certificate.NotAfter - ca.Certificate.NotBefore =
          config.ValidDays * nsPerDay + (env.now 1 - env.now 0)) := by
  cases hk : env.genKey config.KeySize with
  | error e => simp [GenerateCA, hk] at h
  | ok key =>
    cases hs : env.genSerial with
    | error e => simp [GenerateCA, hk, hs] at h
    | ok serial =>
      simp only [GenerateCA, hk, hs] at h
      injection h with h2
      subst h2
      refine ⟨rfl, rfl, rfl, by dsimp only [createCertificate]; decide,
        by dsimp only [createCertificate]; decide,
        by simp [createCertificate], by simp [createCertificate],
        by dsimp only [createCertificate]; ring, ?_⟩
      intro h0 h1
      dsimp only [createCertificate]
      rw [daysDuration_eq_of_lt config.ValidDays h0 h1]
      ring

/-- C6 witness: the amended theorem at caCfg365 under the standing
clock, where 365 days sit inside the overflow-free range and the
validity window is exactly 365 days. -/
theorem generate_ca_fields_witness :
    caResSame.Certificate.Issuer = caResSame.Certificate.Subject
    ∧ caResSame.Certificate.MaxPathLen = 1
    ∧ caResSame.Certificate.NotAfter - caResSame.Certificate.NotBefore =
        caCfg365.ValidDays * nsPerDay + (envOk.now 1 - envOk.now 0) := by
  have hw := generate_ca_fields envOk caCfg365 caResSame rfl
  exact ⟨hw.1, hw.2.2.1, hw.2.2.2.2.2.2.2.2 (by norm_num [caCfg365]) (by norm_num [caCfg365])⟩

/-- C5: a generated leaf certificate carries the extended key usage of
exactly the requested role — serverAuth for a server leaf, clientAuth
for a client leaf, never both — and a server leaf carries the
configured DNS names and IP addresses verbatim while a client leaf
carries none. -/
theorem generate_certificate_role_exclusive (env : CryptoEnv) (config : CertConfig)
    (ca : CAResult) (res : CertResult)
    (h : GenerateCertificate env config ca = .ok res) :
    (config.IsServer = true →
      res.Certificate.ExtKeyUsages = [.ServerAuth]
      ∧ res.Certificate.DNSNames = config.DNSNames
      ∧ res.Certificate.IPAddresses = config.IPAddresses)
    ∧ (config.IsServer = false →
      res.Certificate.ExtKeyUsages = [.ClientAuth]
      ∧ res.Certificate.DNSNames = []
      ∧ res.Certificate.IPAddresses = [])
    ∧ ((ExtKeyUsage.ServerAuth ∈ res.Certificate.ExtKeyUsages
        ∧ ExtKeyUsage.ClientAuth ∉ res.Certificate.ExtKeyUsages)
      ∨ (ExtKeyUsage.ClientAuth ∈ res.Certificate.ExtKeyUsages
        ∧ ExtKeyUsage.ServerAuth ∉ res.Certificate.ExtKeyUsages)) := by
  cases hk : env.genKey config.KeySize with
  | error e => simp [GenerateCertificate, hk] at h
  | ok key =>
    cases hs : env.genSerial with
    | error e => simp [GenerateCertificate, hk, hs] at h
    | ok serial =>
      cases hsrv : config.IsServer with
      | true =>
        simp only [GenerateCertificate, hk, hs, hsrv, if_true] at h
        injection h with h2
        subst h2
        exact ⟨fun _ => ⟨rfl, rfl, rfl⟩, fun hf => Bool.noConfusion hf,
          Or.inl ⟨by simp [createCertificate], by simp [createCertificate]⟩⟩
      | false =>
        simp only [GenerateCertificate, hk, hs, hsrv, if_false] at h
        injection h with h2
        subst h2
        exact ⟨fun hf => Bool.noConfusion hf, fun _ => ⟨rfl, rfl, rfl⟩,
          Or.inr ⟨by simp [createCertificate], by simp [createCertificate]⟩⟩

/-- C5 witness: the server leaf generated for cfgServerLeaf carries
serverAuth only and the configured SAN lists verbatim. -/
theorem generate_certificate_role_exclusive_witness :
    leafServerFix.Certificate.ExtKeyUsages = [ExtKeyUsage.ServerAuth]
    ∧ leafServerFix.Certificate.DNSNames = cfgServerLeaf.DNSNames
    ∧ leafServerFix.Certificate.IPAddresses = cfgServerLeaf.IPAddresses := by
  have hw := generate_certificate_role_exclusive envOk cfgServerLeaf caResSame
    leafServerFix rfl
  exact hw.1 rfl

/-- C4: a CA-load failure makes SignClientCert fail with the dedicated
load-CA error wrapping the cause — a constructor distinct from the raw
read (I/O) errors — and produce no certificate; and LoadCA itself fails
on a certificate file with no PEM block, on a block whose type tag is
not CERTIFICATE, and on a key block whose type tag is not RSA PRIVATE
KEY. -/
theorem sign_client_cert_typed_load_error :
    (∀ (cm : CertManager) (fs : FileSys) (env : CryptoEnv) (config : CertConfig)
        (e : CertsError),
      LoadCA fs cm.caCertPath cm.caKeyPath = .error e →
      CertManager.SignClientCert cm fs env config = .error (.loadCAFailed e))
    ∧ (∀ (e : CertsError) (s : String),
      CertsError.loadCAFailed e ≠ CertsError.readCACertFailed s
      ∧ CertsError.loadCAFailed e ≠ CertsError.readCAKeyFailed s)
    ∧ (∀ (fs : FileSys) (certPath keyPath : String) (entry : FileEntry),
      fsRead fs certPath = some entry → entry.data = none →
      LoadCA fs certPath keyPath = .error .decodeCACertPEMFailed)
    ∧ (∀ (fs : FileSys) (certPath keyPath : String) (entry : FileEntry)
        (block : PemBlock),
      fsRead fs certPath = some entry → entry.data = some block →
      block.TypeTag ≠ "CERTIFICATE" →
      LoadCA fs certPath keyPath = .error .decodeCACertPEMFailed)
    ∧ (∀ (fs : FileSys) (certPath keyPath : String) (entry keyEntry : FileEntry)
        (block keyBlock : PemBlock) (c : Certificate),
      fsRead fs certPath = some entry → entry.data = some block →
      block.TypeTag = "CERTIFICATE" → block.Bytes = .certDER c →
      fsRead fs keyPath = some keyEntry → keyEntry.data = some keyBlock →
      keyBlock.TypeTag ≠ "RSA PRIVATE KEY" →
      LoadCA fs certPath keyPath = .error .decodeCAKeyPEMFailed) := by
  refine ⟨?_, ?_, ?_, ?_, ?_⟩
  · intro cm fs env config e he
    simp [CertManager.SignClientCert, he]
  · intro e s
    exact ⟨fun hx => CertsError.noConfusion hx, fun hx => CertsError.noConfusion hx⟩
  · intro fs certPath keyPath entry h1 h2
    simp [LoadCA, h1, h2]
  · intro fs certPath keyPath entry block h1 h2 h3
    simp [LoadCA, h1, h2, h3]
  · intro fs certPath keyPath entry keyEntry block keyBlock c h1 h2 h3 h4 h5 h6 h7
    simp [LoadCA, h1, h2, h3, h4, h5, h6, h7, parseCertificate]

/-- C4 witness: a certs directory whose CA certificate file decodes to
no PEM block makes LoadCA fail with the decode error and SignClientCert
fail with the load-CA error wrapping it. -/
theorem sign_client_cert_typed_load_error_witness :
    CertManager.SignClientCert cmCerts fsBadCert envOk cfgServerLeaf =
      .error (.loadCAFailed .decodeCACertPEMFailed)
    ∧ CertsError.loadCAFailed CertsError.decodeCACertPEMFailed ≠
        CertsError.readCACertFailed "no such file or directory"
    ∧ LoadCA fsBadCert cmCerts.caCertPath cmCerts.caKeyPath =
        .error .decodeCACertPEMFailed := by
  have h3 := sign_client_cert_typed_load_error.2.2.1 fsBadCert cmCerts.caCertPath
    cmCerts.caKeyPath { data := none, mode := 0o644 } rfl rfl
  have h1 := sign_client_cert_typed_load_error.1 cmCerts fsBadCert envOk cfgServerLeaf
    .decodeCACertPEMFailed h3
  have h2 := (sign_client_cert_typed_load_error.2.1 .decodeCACertPEMFailed
    "no such file or directory").1
  exact ⟨h1, h2, h3⟩

/-- C8: a successful SaveCAToFiles or SaveCertToFiles leaves the
certificate file with the world-readable mode 0644 and the private key
file with the owner-only mode 0600, whose group and world bits are all
clear. -/
theorem save_modes_cert_public_key_private :
    (∀ (io : IOEnv) (fs fs2 : FileSys) (ca : CAResult) (certPath keyPath : String),
      certPath ≠ keyPath →
      SaveCAToFiles io fs ca certPath keyPath = .ok fs2 →
      fsRead fs2 certPath = some { data := ca.CertPEM, mode := 0o644 }
      ∧ fsRead fs2 keyPath = some { data := ca.KeyPEM, mode := 0o600 }
      ∧ (0o600 : Nat) &&& 0o077 = 0)
    ∧ (∀ (io : IOEnv) (fs fs2 : FileSys) (cert : CertResult) (certPath keyPath : String),
      certPath ≠ keyPath →
      SaveCertToFiles io fs cert certPath keyPath = .ok fs2 →
      fsRead fs2 certPath = some { data := cert.CertPEM, mode := 0o644 }
      ∧ fsRead fs2 keyPath = some { data := cert.KeyPEM, mode := 0o600 }
      ∧ (0o600 : Nat) &&& 0o077 = 0) := by
  constructor
  · intro io fs fs2 ca certPath keyPath hne h
    have hkc : (keyPath == certPath) = false := beq_eq_false_iff_ne.mpr (Ne.symm hne)
    simp only [SaveCAToFiles] at h
    split_ifs at h
    injection h with h2
    subst h2
    refine ⟨?_, ?_, by decide⟩
    · simp [fsRead, fsWrite, hkc]
    · simp [fsRead, fsWrite]
  · intro io fs fs2 cert certPath keyPath hne h
    have hkc : (keyPath == certPath) = false := beq_eq_false_iff_ne.mpr (Ne.symm hne)
    simp only [SaveCertToFiles] at h
    split_ifs at h
    injection h with h2
    subst h2
    refine ⟨?_, ?_, by decide⟩
    · simp [fsRead, fsWrite, hkc]
    · simp [fsRead, fsWrite]

/-- C8 witness: saving caResSame and leafServerFix under an all-success
I/O oracle leaves certificates at mode 0644 and keys at mode 0600. -/
theorem save_modes_cert_public_key_private_witness :
    fsRead fsAfterSaveCA "ca/ca-cert.pem" = some { data := caResSame.CertPEM, mode := 0o644 }
    ∧ fsRead fsAfterSaveCA "ca/ca-key.pem" = some { data := caResSame.KeyPEM, mode := 0o600 }
    ∧ fsRead fsAfterSaveLeaf "tls/server-cert.pem" =
        some { data := leafServerFix.CertPEM, mode := 0o644 }
    ∧ fsRead fsAfterSaveLeaf "tls/server-key.pem" =
        some { data := leafServerFix.KeyPEM, mode := 0o600 } := by
  have hca := save_modes_cert_public_key_private.1 ioAll [] fsAfterSaveCA caResSame
    "ca/ca-cert.pem" "ca/ca-key.pem" (by decide) rfl
  have hleaf := save_modes_cert_public_key_private.2 ioAll [] fsAfterSaveLeaf leafServerFix
    "tls/server-cert.pem" "tls/server-key.pem" (by decide) rfl
  exact ⟨hca.1, hca.2.1, hleaf.1, hleaf.2.1⟩

end McpAmbari
